import Mathlib

/-!
Verification of the expense-tracker component in `src/app/index.tsx`.

The development shallowly embeds the component's pure state logic:

* `Expense`, `ExpenseTracker` mirror the TypeScript interfaces; `Date`
  values are embedded as their millisecond timestamps (`Date.getTime`),
  which is the only observation the code makes of them (sorting) besides
  serialization.
* The state operations `addTracker`, `deleteTracker`, `addExpense`,
  `deleteExpense`, `toggleStatus`, `toggleExpand`, `getTotal` are
  translated directly from the source.
* The persistence round trip (the save effect `JSON.stringify(trackers)`
  and the load effect `JSON.parse` + `new Date(tracker.date)`) is embedded
  at the JSON-tree level.  JavaScript numbers are idealized as exact
  rationals; `NaN` and the infinities are kept as explicit values because
  `JSON.stringify` serializes them as `null` (ECMA-262), which matters for
  the round-trip claim.  `Date` serialization is `toISOString`, modeled by
  the proleptic-Gregorian conversion below, and the load side models
  parsing of the date-time string format.
-/
/- `Rat.add`, `Rat.mul`, `Rat.inv` and `Rat.sub` are shipped irreducible;
they are made semireducible here so that concrete rational computations
in examples and witnesses can be settled by `decide`. -/
set_option allowUnsafeReducibility true in
attribute [semireducible] Rat.add

set_option allowUnsafeReducibility true in
attribute [semireducible] Rat.mul

set_option allowUnsafeReducibility true in
attribute [semireducible] Rat.inv

set_option allowUnsafeReducibility true in
attribute [semireducible] Rat.sub

/- `List.mergeSort` is defined by well-founded recursion and shipped
sealed; unsealing lets concrete sorts be evaluated by `decide`. -/
set_option allowUnsafeReducibility true in
attribute [semireducible] List.mergeSort

set_option allowUnsafeReducibility true in
attribute [semireducible] List.merge

/-! ## Calendar: proleptic Gregorian civil date from day number

ECMA-262 defines `YearFromTime(t)` as the largest year whose first
instant is not after `t`, with days-per-year given by the Gregorian leap
rule.  We work in March-based years within 400-year eras (era =
146097 days), the standard technique for this conversion. -/
/-- Days from the start of a 400-year era to the start of year-of-era `y`
(March-based years, valid for `y` in `[0, 400]`). -/
def daysBeforeYoe (y : Int) : Int := 365 * y + y / 4 - y / 100 + y / 400

/-- Year-of-era from day-of-era: the largest `y` with
`daysBeforeYoe y ≤ doe`.  The first guess `doe / 366` is at most one
short and never over, so one correction step suffices. -/
def yoeOfDoe (doe : Int) : Int :=
  if daysBeforeYoe (doe / 366 + 1) ≤ doe then doe / 366 + 1 else doe / 366

/-- Era index of day number `z` (day 0 = 1970-01-01; era 0 starts
0000-03-01, which is 719468 days before day 0). -/
def eraOfZ (z : Int) : Int := (z + 719468) / 146097

/-- Day-of-era of day number `z`. -/
def doeOfZ (z : Int) : Int := (z + 719468) % 146097

/-- Year-of-era of day number `z`. -/
def yoeZ (z : Int) : Int := yoeOfDoe (doeOfZ z)

/-- Day-of-year (March-based) of day number `z`. -/
def doyZ (z : Int) : Int := doeOfZ z - daysBeforeYoe (yoeZ z)

/-- March-based month index `[0..11]` (0 = March) from the day-of-year. -/
def mpZ (z : Int) : Int := (5 * doyZ z + 2) / 153

/-- Calendar month `[1..12]` of day number `z`. -/
def monthZ (z : Int) : Int := mpZ z + (if mpZ z < 10 then 3 else -9)

/-- Day of month `[1..31]` of day number `z`. -/
def dayZ (z : Int) : Int := doyZ z - (153 * mpZ z + 2) / 5 + 1

/-- Calendar year of day number `z`. -/
def yearZ (z : Int) : Int :=
  yoeZ z + eraOfZ z * 400 + (if monthZ z ≤ 2 then 1 else 0)

/-- Civil date `(year, month, day)` of day number `z`. -/
def civilFromDays (z : Int) : Int × Int × Int := (yearZ z, monthZ z, dayZ z)

/-- Day number from a civil date (ECMA-262 `MakeDay`): total, and handles
out-of-range days arithmetically, as `MakeDay` does. -/
def daysFromCivil (y0 m d : Int) : Int :=
  let y := y0 - (if m ≤ 2 then 1 else 0)
  let era := y / 400
  let yoe := y - era * 400
  let doy := (153 * (m + (if m > 2 then -3 else 9)) + 2) / 5 + d - 1
  let doe := yoe * 365 + yoe / 4 - yoe / 100 + doy
  era * 146097 + doe - 719468

/-! ## ISO 8601 date-time strings

`JSON.stringify` serializes a `Date` via `Date.prototype.toJSON`, i.e.
`toISOString`: `YYYY-MM-DDTHH:mm:ss.sssZ`, with the year printed as six
digits preceded by a sign when outside `[0, 9999]` (ECMA-262).  The load
side (`new Date(string)`) parses this date-time string format back to a
time value.  Both directions are modeled below on `List Char`. -/
def digitChar (d : Nat) : Char := Char.ofNat (48 + d)

def digitVal (c : Char) : Option Nat :=
  if 48 ≤ c.toNat ∧ c.toNat ≤ 57 then some (c.toNat - 48) else none

/-- Fixed-width decimal rendering, most significant digit first. -/
def natDigits : Nat → Nat → List Char
  | 0, _ => []
  | w + 1, n => digitChar (n / 10 ^ w) :: natDigits w (n % 10 ^ w)

/-- Fixed-width decimal parsing with accumulator. -/
def parseDigits : Nat → Nat → List Char → Option (Nat × List Char)
  | 0, acc, cs => some (acc, cs)
  | w + 1, acc, c :: cs =>
    match digitVal c with
    | some d => parseDigits w (10 * acc + d) cs
    | none => none
  | _ + 1, _, [] => none

def expectChar (c : Char) (cs : List Char) : Option (List Char) :=
  match cs with
  | d :: rest => if d = c then some rest else none
  | [] => none

/-- Year rendering of `toISOString`: four digits for `[0, 9999]`,
otherwise a sign and six digits (ECMA-262 expanded years). -/
def yearChars (y : Int) : List Char :=
  if 0 ≤ y ∧ y ≤ 9999 then natDigits 4 y.toNat
  else if y < 0 then '-' :: natDigits 6 (-y).toNat
  else '+' :: natDigits 6 y.toNat

/-- The character list of `toISOString` for time value `t` (milliseconds
since the epoch). -/
def toISOChars (t : Int) : List Char :=
  yearChars (yearZ (t / 86400000)) ++
    ('-' :: (natDigits 2 (monthZ (t / 86400000)).toNat ++
      ('-' :: (natDigits 2 (dayZ (t / 86400000)).toNat ++
        ('T' :: (natDigits 2 ((t % 86400000) / 3600000).toNat ++
          (':' :: (natDigits 2 ((t % 86400000) / 60000 % 60).toNat ++
            (':' :: (natDigits 2 ((t % 86400000) / 1000 % 60).toNat ++
              ('.' :: (natDigits 3 ((t % 86400000) % 1000).toNat ++ ['Z']))))))))))))

/-- Model of `Date.prototype.toISOString` (via `Date.prototype.toJSON`,
which `JSON.stringify` invokes on `Date` values). -/
def toISOString (t : Int) : String := String.mk (toISOChars t)

/-- Final stage of ISO parsing: end of input, component range checks
(ECMA-262 date-time string grammar), and the time-value clip to
`|t| ≤ 8.64e15` (`TimeClip`). -/
def isoFin (y : Int) (mo dd hh mi ss ms : Nat) (cs : List Char) : Option Int :=
  match cs with
  | [] =>
    if 1 ≤ mo ∧ mo ≤ 12 ∧ 1 ≤ dd ∧ dd ≤ 31 ∧
        (hh ≤ 23 ∨ (hh = 24 ∧ mi = 0 ∧ ss = 0 ∧ ms = 0)) ∧ mi ≤ 59 ∧ ss ≤ 59 then
      let t : Int := daysFromCivil y mo dd * 86400000 +
        hh * 3600000 + mi * 60000 + ss * 1000 + ms
      if -8640000000000000 ≤ t ∧ t ≤ 8640000000000000 then some t else none
    else none
  | _ :: _ => none

/-- ISO parsing stage: milliseconds then `Z`. -/
def isoMs (y : Int) (mo dd hh mi ss : Nat) (cs : List Char) : Option Int :=
  match parseDigits 3 0 cs with
  | some (ms, cs1) =>
    match expectChar 'Z' cs1 with
    | some cs2 => isoFin y mo dd hh mi ss ms cs2
    | none => none
  | none => none

/-- ISO parsing stage: seconds then `.`. -/
def isoSs (y : Int) (mo dd hh mi : Nat) (cs : List Char) : Option Int :=
  match parseDigits 2 0 cs with
  | some (ss, cs1) =>
    match expectChar '.' cs1 with
    | some cs2 => isoMs y mo dd hh mi ss cs2
    | none => none
  | none => none

/-- ISO parsing stage: minutes then `:`. -/
def isoMi (y : Int) (mo dd hh : Nat) (cs : List Char) : Option Int :=
  match parseDigits 2 0 cs with
  | some (mi, cs1) =>
    match expectChar ':' cs1 with
    | some cs2 => isoSs y mo dd hh mi cs2
    | none => none
  | none => none

/-- ISO parsing stage: hours then `:`. -/
def isoHh (y : Int) (mo dd : Nat) (cs : List Char) : Option Int :=
  match parseDigits 2 0 cs with
  | some (hh, cs1) =>
    match expectChar ':' cs1 with
    | some cs2 => isoMi y mo dd hh cs2
    | none => none
  | none => none

/-- ISO parsing stage: day of month then `T`. -/
def isoDd (y : Int) (mo : Nat) (cs : List Char) : Option Int :=
  match parseDigits 2 0 cs with
  | some (dd, cs1) =>
    match expectChar 'T' cs1 with
    | some cs2 => isoHh y mo dd cs2
    | none => none
  | none => none

/-- ISO parsing stage: month then `-`. -/
def isoMo (y : Int) (cs : List Char) : Option Int :=
  match parseDigits 2 0 cs with
  | some (mo, cs1) =>
    match expectChar '-' cs1 with
    | some cs2 => isoDd y mo cs2
    | none => none
  | none => none

/-- Everything of an ISO date-time string after the year. -/
def parseIsoTail (y : Int) (cs : List Char) : Option Int :=
  match expectChar '-' cs with
  | some cs1 => isoMo y cs1
  | none => none

/-- Model of parsing an ISO date-time string (the format produced by
`toISOString`) to a time value, as `new Date(string)` does.  The year is
four digits, or a sign and six digits; `-000000` is rejected
(ECMA-262). -/
def parseIsoChars (cs : List Char) : Option Int :=
  if cs.head? = some '+' then
    match parseDigits 6 0 cs.tail with
    | some (y, rest) => parseIsoTail (y : Int) rest
    | none => none
  else if cs.head? = some '-' then
    match parseDigits 6 0 cs.tail with
    | some (y, rest) => if y = 0 then none else parseIsoTail (-(y : Int)) rest
    | none => none
  else
    match parseDigits 4 0 cs with
    | some (y, rest) => parseIsoTail (y : Int) rest
    | none => none

def parseIsoDate (s : String) : Option Int := parseIsoChars s.data

/-! ## JavaScript number values and `parseFloat`

JavaScript numbers are idealized as exact rationals; `NaN`, the two
infinities, and `null` (which a reloaded expense amount can hold, see the
JSON layer) are kept as explicit values.  `+` coerces `null` to `0` and
propagates `NaN`. -/
inductive JSVal where
  | num (q : ℚ)
  | nan
  | inf
  | ninf
  | null
deriving DecidableEq

/-- ECMA-262 `ToNumber` on the values that can appear here: `null`
coerces to `+0`; numbers are unchanged. -/
def JSVal.toNumber : JSVal → JSVal
  | .null => .num 0
  | v => v

/-- JavaScript `+` on number-like values: `NaN` propagates, opposite
infinities give `NaN`, `null` coerces to `0`. -/
def jadd (a b : JSVal) : JSVal :=
  match a.toNumber, b.toNumber with
  | .num p, .num q => .num (p + q)
  | .nan, _ => .nan
  | _, .nan => .nan
  | .inf, .ninf => .nan
  | .ninf, .inf => .nan
  | .inf, _ => .inf
  | _, .inf => .inf
  | .ninf, _ => .ninf
  | _, .ninf => .ninf
  | .null, _ => .nan
  | _, .null => .nan

/-- JavaScript string whitespace (the ASCII part plus NBSP), skipped by
`parseFloat`. -/
def isWS (c : Char) : Bool :=
  c = ' ' || c = '\t' || c = '\n' || c = '\r' || c = '\x0b' || c = '\x0c' || c = ' '

def dropWS : List Char → List Char
  | c :: cs => if isWS c then dropWS cs else c :: cs
  | [] => []

/-- Longest prefix of decimal digits, and the remainder. -/
def takeDigits : List Char → List Char × List Char
  | [] => ([], [])
  | c :: cs =>
    if 48 ≤ c.toNat ∧ c.toNat ≤ 57 then
      ((c :: (takeDigits cs).1), (takeDigits cs).2)
    else ([], c :: cs)

def digitsToNat (ds : List Char) : Nat :=
  ds.foldl (fun a c => 10 * a + (c.toNat - 48)) 0

/-- Exponent part after `e`/`E`: optional sign then digits; no digits
means the exponent part is not consumed, i.e. exponent `0`. -/
def expDigits (cs : List Char) : Int :=
  match cs with
  | '+' :: rest => digitsToNat (takeDigits rest).1
  | '-' :: rest => -(digitsToNat (takeDigits rest).1 : Int)
  | _ => digitsToNat (takeDigits cs).1

/-- Model of `parseFloat` (ECMA-262): skip whitespace, read the longest
`StrDecimalLiteral` prefix (sign, `Infinity` or digits with optional
fraction and exponent), ignore trailing characters, `NaN` if no digits.
The numeric value is exact (no float rounding). -/
def parseFloatChars (cs0 : List Char) : JSVal :=
  let cs1 := dropWS cs0
  let sgn : ℚ := match cs1 with
    | '-' :: _ => -1
    | _ => 1
  let cs2 : List Char := match cs1 with
    | '+' :: rest => rest
    | '-' :: rest => rest
    | _ => cs1
  match cs2 with
  | 'I' :: 'n' :: 'f' :: 'i' :: 'n' :: 'i' :: 't' :: 'y' :: _ =>
    if sgn = 1 then .inf else .ninf
  | _ =>
    let ip := takeDigits cs2
    let fp : List Char × List Char := match ip.2 with
      | '.' :: rest => takeDigits rest
      | _ => ([], ip.2)
    if ip.1 = [] ∧ fp.1 = [] then .nan
    else
      let mant : ℚ := sgn * ((digitsToNat ip.1 : ℚ) +
        (digitsToNat fp.1 : ℚ) / 10 ^ fp.1.length)
      let expv : Int := match fp.2 with
        | 'e' :: rest => expDigits rest
        | 'E' :: rest => expDigits rest
        | _ => 0
      .num (mant * 10 ^ expv)

def parseFloat (s : String) : JSVal := parseFloatChars s.data

/-! ## Data model (the TypeScript interfaces in `src/app/index.tsx`) -/
/-- The `Expense` interface: `{ id: number; title: string;
amount: number }`.  `amount` is `JSVal` because a non-numeric input
stores `NaN` (via `parseFloat`) and a reload can store `null`. -/
structure Expense where
  id : Int
  title : String
  amount : JSVal
deriving DecidableEq

/-- The two-value string union type of `status`:
`"In progress ⚠️" | "Cleared ✅"`. -/
inductive Status where
  | inProgress
  | cleared
deriving DecidableEq

/-- The string carried by each `Status` value. -/
def Status.label : Status → String
  | .inProgress => "In progress ⚠️"
  | .cleared => "Cleared ✅"

/-- The `ExpenseTracker` interface.  `date` is the `Date`'s millisecond
timestamp. -/
structure ExpenseTracker where
  id : Int
  name : String
  date : Int
  expenses : List Expense
  status : Status
  expanded : Bool
deriving DecidableEq

/-! ## State operations (translated from `src/app/index.tsx`)

`Date.now()` and `new Date()` at the moment of the call are passed as
the parameter `now`.  `!s` on a string is true exactly for `""`. -/
/-- Source `addTracker` (lines 49-62): guard on empty name, append the new
tracker, sort by date ascending.  `Array.prototype.sort` is stable
(ES2019), as is `List.mergeSort`. -/
def addTracker (trackers : List ExpenseTracker) (trackerName : String)
    (trackerDate : Option Int) (now : Int) : List ExpenseTracker :=
  if trackerName = "" then trackers
  else
    (trackers ++
      [({ id := now
          name := trackerName
          date := trackerDate.getD now
          expenses := []
          status := .inProgress
          expanded := false } : ExpenseTracker)]).mergeSort
      (fun a b => decide (a.date ≤ b.date))

/-- Source `deleteTracker` (lines 66-68). -/
def deleteTracker (trackers : List ExpenseTracker) (trackerId : Int) :
    List ExpenseTracker :=
  trackers.filter (fun tracker => decide (tracker.id ≠ trackerId))

/-- Source `addExpense` (lines 71-80): guard on empty title or amount string,
append `{ id: Date.now(), title, amount: parseFloat(amount) }` to the
matching tracker. -/
def addExpense (trackers : List ExpenseTracker) (trackerId : Int)
    (title amount : String) (now : Int) : List ExpenseTracker :=
  if title = "" ∨ amount = "" then trackers
  else trackers.map fun tracker =>
    if tracker.id = trackerId then
      { tracker with expenses := tracker.expenses ++
        [{ id := now, title := title, amount := parseFloat amount }] }
    else tracker

/-- Source `deleteExpense` (lines 83-89). -/
def deleteExpense (trackers : List ExpenseTracker) (trackerId expenseId : Int) :
    List ExpenseTracker :=
  trackers.map fun tracker =>
    if tracker.id = trackerId then
      { tracker with expenses :=
        tracker.expenses.filter (fun expense => decide (expense.id ≠ expenseId)) }
    else tracker

/-- Source `toggleStatus` (lines 90-96): ternary on the current status string. -/
def toggleStatus (trackers : List ExpenseTracker) (trackerId : Int) :
    List ExpenseTracker :=
  trackers.map fun tracker =>
    if tracker.id = trackerId then
      { tracker with status :=
        if tracker.status = .inProgress then .cleared else .inProgress }
    else tracker

/-- Source `toggleExpand` (lines 98-104). -/
def toggleExpand (trackers : List ExpenseTracker) (trackerId : Int) :
    List ExpenseTracker :=
  trackers.map fun tracker =>
    if tracker.id = trackerId then { tracker with expanded := !tracker.expanded }
    else tracker

/-- Source `getTotal` (lines 106-108):
`tracker.expenses.reduce((sum, expense) => sum + expense.amount, 0)`. -/
def getTotal (tracker : ExpenseTracker) : JSVal :=
  tracker.expenses.foldl (fun sum expense => jadd sum expense.amount) (JSVal.num 0)

/-- The sort on load (line 38).  The source comparator calls
`new Date().getTime()` afresh inside each comparison; it is modeled with
one fixed load time `now`. -/
def sortByRecency (now : Int) (trackers : List ExpenseTracker) : List ExpenseTracker :=
  trackers.mergeSort (fun a b => decide (|now - a.date| ≤ |now - b.date|))

/-! ## Persistence: the JSON blob

The save effect (lines 45-47) is `JSON.stringify(trackers)`; the load
effect (lines 30-42) is `JSON.parse` followed by converting each
tracker's `date` string back to a `Date`.  Both are modeled at the
JSON-tree level (`JSON.parse ∘ JSON.stringify` is the identity on
trees).  Per ECMA-262, `JSON.stringify` writes `NaN` and the infinities
as `null`, and serializes a `Date` via `toJSON`/`toISOString`. -/
inductive Json where
  | null
  | bool (b : Bool)
  | num (q : ℚ)
  | str (s : String)
  | arr (elems : List Json)
  | obj (fields : List (String × Json))

/-- Encoding by `JSON.stringify` of a JS number-like value: finite numbers as JSON
numbers; `NaN` and the infinities become `null` (ECMA-262 24.5.2);
`null` stays `null`. -/
def JSVal.toJson : JSVal → Json
  | .num q => .num q
  | .nan => .null
  | .inf => .null
  | .ninf => .null
  | .null => .null

def encodeExpense (e : Expense) : Json :=
  .obj [("id", .num (e.id : ℚ)), ("title", .str e.title),
    ("amount", e.amount.toJson)]

def encodeTracker (t : ExpenseTracker) : Json :=
  .obj [("id", .num (t.id : ℚ)), ("name", .str t.name),
    ("date", .str (toISOString t.date)),
    ("expenses", .arr (t.expenses.map encodeExpense)),
    ("status", .str t.status.label), ("expanded", .bool t.expanded)]

/-- The stored blob: `JSON.stringify(trackers)` as a JSON tree. -/
def encodeTrackers (trackers : List ExpenseTracker) : Json :=
  .arr (trackers.map encodeTracker)

/-- Reading an `amount` field back: a JSON number or the `null` written
for non-finite amounts.  The code does not validate. -/
def decodeAmount : Json → Option JSVal
  | .num q => some (.num q)
  | .null => some .null
  | _ => none

/-- Reading an `id` field back (ids are integers from `Date.now()`). -/
def decodeId : Json → Option Int
  | .num q => if q.den = 1 then some q.num else none
  | _ => none

def decodeExpense : Json → Option Expense
  | .obj [("id", j1), ("title", .str title), ("amount", j3)] =>
    match decodeId j1, decodeAmount j3 with
    | some i, some a => some { id := i, title := title, amount := a }
    | _, _ => none
  | _ => none

def decodeStatus (s : String) : Option Status :=
  if s = "In progress ⚠️" then some .inProgress
  else if s = "Cleared ✅" then some .cleared
  else none

def decodeExpenses : List Json → Option (List Expense)
  | [] => some []
  | j :: js =>
    match decodeExpense j, decodeExpenses js with
    | some e, some es => some (e :: es)
    | _, _ => none

def decodeTracker : Json → Option ExpenseTracker
  | .obj [("id", j1), ("name", .str nm), ("date", .str ds),
      ("expenses", .arr js), ("status", .str st), ("expanded", .bool ex)] =>
    match decodeId j1, parseIsoDate ds, decodeExpenses js, decodeStatus st with
    | some i, some d, some es, some s =>
      some { id := i, name := nm, date := d, expenses := es, status := s, expanded := ex }
    | _, _, _, _ => none
  | _ => none

def decodeTrackers : List Json → Option (List ExpenseTracker)
  | [] => some []
  | j :: js =>
    match decodeTracker j, decodeTrackers js with
    | some t, some ts => some (t :: ts)
    | _, _ => none

/-- The load effect (lines 30-42): parse the stored blob, convert each
date string back to a date value (`new Date(tracker.date)`), sort by
proximity to the load time. -/
def loadTrackers (now : Int) (blob : Json) : Option (List ExpenseTracker) :=
  match blob with
  | .arr js => (decodeTrackers js).map (sortByRecency now)
  | _ => none

/-- An amount value is storable when the JSON round trip keeps it: a
finite number or `null`.  `NaN` and the infinities are not storable
(they serialize to `null`). -/
def isStorable : JSVal → Bool
  | .num _ => true
  | .null => true
  | _ => false

/-- The sum of a list of JS number values (spec side: "the sum of the
amounts of the expenses"). -/
def sumAmounts (amounts : List JSVal) : JSVal := amounts.foldr jadd (JSVal.num 0)

/-- Sample data shared by the witnesses. -/
def demoExpense : Expense := { id := 11, title := "veg", amount := JSVal.num 4 }

def demoA : ExpenseTracker :=
  { id := 1, name := "home", date := 86400000, expenses := [demoExpense],
    status := .inProgress, expanded := false }

def demoB : ExpenseTracker :=
  { id := 2, name := "trip", date := 432000000, expenses := [],
    status := .cleared, expanded := true }

/-- A tracker holding an expense whose amount is `NaN`, as stored by
`addExpense` from a non-numeric amount string. -/
def nanTracker : ExpenseTracker :=
  { id := 1, name := "groceries", date := 0,
    expenses := [{ id := 2, title := "veg", amount := JSVal.nan }],
    status := .inProgress, expanded := false }

/-- The invariant of C9: a tracker's status is one of exactly the two
enum values. -/
def statusValid (t : ExpenseTracker) : Prop :=
  t.status = .inProgress ∨ t.status = .cleared

example : civilFromDays 0 = (1970, 1, 1) := by decide

example : daysFromCivil 1970 1 1 = 0 := by decide

example : civilFromDays 19000 = (2022, 1, 8) := by decide

example : daysFromCivil 2022 1 8 = 19000 := by decide

example : civilFromDays 11016 = (2000, 2, 29) := by decide

example : daysFromCivil 2000 2 29 = 11016 := by decide

example : civilFromDays (-719468) = (0, 3, 1) := by decide

example : daysFromCivil 0 3 1 = -719468 := by decide

example : civilFromDays (-719469) = (0, 2, 29) := by decide

example : civilFromDays (-141427) = (1582, 10, 15) := by decide

/-- Each March-based year spans 365 or 366 days. -/
theorem daysBeforeYoe_succ (y : Int) :
    365 ≤ daysBeforeYoe (y + 1) - daysBeforeYoe y ∧
    daysBeforeYoe (y + 1) - daysBeforeYoe y ≤ 366 := by
  unfold daysBeforeYoe
  omega

/-- The year-of-era extraction is correct: the returned year starts at or
before `doe` and `doe` falls within its (at most 366-day) extent. -/
theorem yoeOfDoe_spec (doe : Int) (h0 : 0 ≤ doe) (h1 : doe ≤ 146096) :
    0 ≤ yoeOfDoe doe ∧ yoeOfDoe doe ≤ 399 ∧
    daysBeforeYoe (yoeOfDoe doe) ≤ doe ∧ doe - daysBeforeYoe (yoeOfDoe doe) ≤ 365 := by
  have hs := daysBeforeYoe_succ (doe / 366)
  unfold yoeOfDoe
  unfold daysBeforeYoe at hs ⊢
  split <;> omega

/-- Generic core of the round trip `daysFromCivil ∘ civilFromDays = id`,
stated over the intermediate quantities so that the final step is linear
arithmetic. -/
theorem roundtrip_core (z era doe yoe doy mp m d y : Int)
    (hera : era = (z + 719468) / 146097)
    (hdoe : doe = (z + 719468) % 146097)
    (hyoe0 : 0 ≤ yoe) (hyoe1 : yoe ≤ 399)
    (hlow : daysBeforeYoe yoe ≤ doe)
    (hhigh : doe - daysBeforeYoe yoe ≤ 365)
    (hdoy : doy = doe - daysBeforeYoe yoe)
    (hmp : mp = (5 * doy + 2) / 153)
    (hm : m = mp + (if mp < 10 then 3 else -9))
    (hd : d = doy - (153 * mp + 2) / 5 + 1)
    (hy : y = yoe + era * 400 + (if m ≤ 2 then 1 else 0)) :
    daysFromCivil y m d = z := by
  unfold daysBeforeYoe at hlow hhigh hdoy
  have hmp0 : 0 ≤ mp := by omega
  have hmp1 : mp ≤ 11 := by omega
  unfold daysFromCivil
  simp only
  rcases lt_or_le mp 10 with h10 | h10
  · rw [if_pos h10] at hm
    rw [if_neg (by omega : ¬ m ≤ 2)] at hy
    rw [if_neg (by omega : ¬ m ≤ 2), if_pos (by omega : m > 2)]
    subst hy hd hm hmp hdoy hera hdoe
    simp only [add_zero, sub_zero, add_neg_cancel_right]
    rw [show (yoe + (z + 719468) / 146097 * 400) / 400 = (z + 719468) / 146097 from by omega]
    simp only [add_sub_cancel_right]
    omega
  · rw [if_neg (by omega : ¬ mp < 10)] at hm
    rw [if_pos (by omega : m ≤ 2)] at hy
    rw [if_pos (by omega : m ≤ 2), if_neg (by omega : ¬ m > 2)]
    subst hy hd hm hmp hdoy hera hdoe
    simp only [add_sub_cancel_right, neg_add_cancel_right]
    rw [show (yoe + (z + 719468) / 146097 * 400) / 400 = (z + 719468) / 146097 from by omega]
    simp only [add_sub_cancel_right]
    omega

/-- The civil-date conversion is inverted by `daysFromCivil`. -/
theorem days_civil_roundtrip (z : Int) :
    daysFromCivil (yearZ z) (monthZ z) (dayZ z) = z := by
  have hy := yoeOfDoe_spec (doeOfZ z) (by unfold doeOfZ; omega) (by unfold doeOfZ; omega)
  exact roundtrip_core z (eraOfZ z) (doeOfZ z) (yoeZ z) (doyZ z) (mpZ z) (monthZ z)
    (dayZ z) (yearZ z) rfl rfl hy.1 hy.2.1 hy.2.2.1 hy.2.2.2 rfl rfl rfl rfl rfl

/-- Month and day-of-month ranges of the civil conversion. -/
theorem monthZ_dayZ_bounds (z : Int) :
    1 ≤ monthZ z ∧ monthZ z ≤ 12 ∧ 1 ≤ dayZ z ∧ dayZ z ≤ 31 := by
  have hy := yoeOfDoe_spec (doeOfZ z) (by unfold doeOfZ; omega) (by unfold doeOfZ; omega)
  have hdoy : 0 ≤ doyZ z ∧ doyZ z ≤ 365 := by
    unfold doyZ yoeZ
    omega
  have hmp : 0 ≤ mpZ z ∧ mpZ z ≤ 11 := by
    unfold mpZ
    omega
  constructor
  · unfold monthZ
    split <;> omega
  refine ⟨?_, ?_, ?_⟩
  · unfold monthZ
    split <;> omega
  · unfold dayZ mpZ
    omega
  · unfold dayZ mpZ
    omega

/-- Year range of the civil conversion for day numbers within the
ECMA-262 time range (`|t| ≤ 8.64e15` ms gives `|z| ≤ 1e8` days). -/
theorem yearZ_bounds (z : Int) (h0 : -100000000 ≤ z) (h1 : z ≤ 100000000) :
    -280000 ≤ yearZ z ∧ yearZ z ≤ 280000 := by
  have hy := yoeOfDoe_spec (doeOfZ z) (by unfold doeOfZ; omega) (by unfold doeOfZ; omega)
  unfold yearZ yoeZ eraOfZ
  unfold doeOfZ at hy ⊢
  split <;> omega

theorem digitVal_digitChar (d : Nat) (h : d < 10) : digitVal (digitChar d) = some d := by
  interval_cases d <;> decide

theorem digitChar_ne_sign (d : Nat) (h : d < 10) :
    digitChar d ≠ '+' ∧ digitChar d ≠ '-' := by
  interval_cases d <;> exact ⟨by decide, by decide⟩

theorem parseDigits_append (w : Nat) :
    ∀ (acc n : Nat) (rest : List Char), n < 10 ^ w →
      parseDigits w acc (natDigits w n ++ rest) = some (acc * 10 ^ w + n, rest) := by
  induction w with
  | zero =>
    intro acc n rest h
    simp only [natDigits, List.nil_append, parseDigits, pow_zero, mul_one]
    rw [show n = 0 from by omega, add_zero]
  | succ w ih =>
    intro acc n rest h
    have hpow : (10 : Nat) ^ (w + 1) = 10 ^ w * 10 := pow_succ 10 w
    have hd : n / 10 ^ w < 10 := Nat.div_lt_of_lt_mul (by omega)
    have hm : n % 10 ^ w < 10 ^ w := Nat.mod_lt _ (Nat.pos_pow_of_pos w (by norm_num))
    simp only [natDigits, List.cons_append, parseDigits, digitVal_digitChar _ hd,
      List.append_eq]
    rw [ih (10 * acc + n / 10 ^ w) (n % 10 ^ w) rest hm]
    have harith : (10 * acc + n / 10 ^ w) * 10 ^ w + n % 10 ^ w = acc * 10 ^ (w + 1) + n := by
      calc (10 * acc + n / 10 ^ w) * 10 ^ w + n % 10 ^ w
          = acc * (10 ^ w * 10) + (10 ^ w * (n / 10 ^ w) + n % 10 ^ w) := by ring
        _ = acc * 10 ^ (w + 1) + n := by rw [Nat.div_add_mod, pow_succ]
    rw [harith]

theorem expectChar_cons (c : Char) (rest : List Char) :
    expectChar c (c :: rest) = some rest := by
  simp [expectChar]

theorem parseIsoTail_step (y : Int) (cs : List Char) :
    parseIsoTail y ('-' :: cs) = isoMo y cs := by
  unfold parseIsoTail
  rw [expectChar_cons]

theorem isoMo_step (y : Int) (n : Nat) (cs : List Char) (h : n < 100) :
    isoMo y (natDigits 2 n ++ ('-' :: cs)) = isoDd y n cs := by
  unfold isoMo
  rw [parseDigits_append 2 0 n _ (by simpa using h)]
  simp [expectChar_cons]

theorem isoDd_step (y : Int) (mo n : Nat) (cs : List Char) (h : n < 100) :
    isoDd y mo (natDigits 2 n ++ ('T' :: cs)) = isoHh y mo n cs := by
  unfold isoDd
  rw [parseDigits_append 2 0 n _ (by simpa using h)]
  simp [expectChar_cons]

theorem isoHh_step (y : Int) (mo dd n : Nat) (cs : List Char) (h : n < 100) :
    isoHh y mo dd (natDigits 2 n ++ (':' :: cs)) = isoMi y mo dd n cs := by
  unfold isoHh
  rw [parseDigits_append 2 0 n _ (by simpa using h)]
  simp [expectChar_cons]

theorem isoMi_step (y : Int) (mo dd hh n : Nat) (cs : List Char) (h : n < 100) :
    isoMi y mo dd hh (natDigits 2 n ++ (':' :: cs)) = isoSs y mo dd hh n cs := by
  unfold isoMi
  rw [parseDigits_append 2 0 n _ (by simpa using h)]
  simp [expectChar_cons]

theorem isoSs_step (y : Int) (mo dd hh mi n : Nat) (cs : List Char) (h : n < 100) :
    isoSs y mo dd hh mi (natDigits 2 n ++ ('.' :: cs)) = isoMs y mo dd hh mi n cs := by
  unfold isoSs
  rw [parseDigits_append 2 0 n _ (by simpa using h)]
  simp [expectChar_cons]

theorem isoMs_step (y : Int) (mo dd hh mi ss n : Nat) (cs : List Char) (h : n < 1000) :
    isoMs y mo dd hh mi ss (natDigits 3 n ++ ('Z' :: cs)) = isoFin y mo dd hh mi ss n cs := by
  unfold isoMs
  rw [parseDigits_append 3 0 n _ (by simpa using h)]
  simp [expectChar_cons]

theorem isoFin_eq (y : Int) (mo dd hh mi ss ms : Nat)
    (hmo1 : 1 ≤ mo) (hmo2 : mo ≤ 12) (hdd1 : 1 ≤ dd) (hdd2 : dd ≤ 31)
    (hhh : hh ≤ 23) (hmi : mi ≤ 59) (hss : ss ≤ 59)
    (hlo : -8640000000000000 ≤ daysFromCivil y mo dd * 86400000 +
      hh * 3600000 + mi * 60000 + ss * 1000 + ms)
    (hhi : daysFromCivil y mo dd * 86400000 +
      hh * 3600000 + mi * 60000 + ss * 1000 + ms ≤ 8640000000000000) :
    isoFin y mo dd hh mi ss ms [] =
      some (daysFromCivil y mo dd * 86400000 +
        hh * 3600000 + mi * 60000 + ss * 1000 + ms) := by
  unfold isoFin
  rw [if_pos (by omega), if_pos ⟨hlo, hhi⟩]

/-- Parsing the tail of an ISO string rendered from in-range components
recovers the encoded time value. -/
theorem parseIsoTail_eq (y : Int) (mo dd hh mi ss ms : Nat)
    (hmo1 : 1 ≤ mo) (hmo2 : mo ≤ 12) (hdd1 : 1 ≤ dd) (hdd2 : dd ≤ 31)
    (hhh : hh ≤ 23) (hmi : mi ≤ 59) (hss : ss ≤ 59) (hms : ms ≤ 999)
    (hlo : -8640000000000000 ≤ daysFromCivil y mo dd * 86400000 +
      hh * 3600000 + mi * 60000 + ss * 1000 + ms)
    (hhi : daysFromCivil y mo dd * 86400000 +
      hh * 3600000 + mi * 60000 + ss * 1000 + ms ≤ 8640000000000000) :
    parseIsoTail y ('-' :: (natDigits 2 mo ++ ('-' :: (natDigits 2 dd ++
        ('T' :: (natDigits 2 hh ++ (':' :: (natDigits 2 mi ++
        (':' :: (natDigits 2 ss ++ ('.' :: (natDigits 3 ms ++ ['Z'])))))))))))) =
      some (daysFromCivil y mo dd * 86400000 +
        hh * 3600000 + mi * 60000 + ss * 1000 + ms) := by
  rw [parseIsoTail_step, isoMo_step _ _ _ (by omega), isoDd_step _ _ _ _ (by omega),
    isoHh_step _ _ _ _ _ (by omega), isoMi_step _ _ _ _ _ _ (by omega),
    isoSs_step _ _ _ _ _ _ _ (by omega)]
  rw [show natDigits 3 ms ++ ['Z'] = natDigits 3 ms ++ ('Z' :: ([] : List Char)) from rfl]
  rw [isoMs_step _ _ _ _ _ _ _ _ (by omega)]
  exact isoFin_eq y mo dd hh mi ss ms hmo1 hmo2 hdd1 hdd2 hhh hmi hss hlo hhi

example : toISOString 0 = "1970-01-01T00:00:00.000Z" := by decide

example : toISOString 1641645005250 = "2022-01-08T12:30:05.250Z" := by decide

example : parseIsoDate "2022-01-08T12:30:05.250Z" = some 1641645005250 := by decide

example : toISOString (-62167305600000) = "-000001-12-31T00:00:00.000Z" := by decide

example : parseIsoDate "-000001-12-31T00:00:00.000Z" = some (-62167305600000) := by decide

example : toISOString 8640000000000000 = "+275760-09-13T00:00:00.000Z" := by decide

example : toISOString (-8640000000000000) = "-271821-04-20T00:00:00.000Z" := by decide

theorem parseIsoChars_year4 (n : Nat) (rest : List Char) (h : n < 10000) :
    parseIsoChars (natDigits 4 n ++ rest) = parseIsoTail (n : Int) rest := by
  have h1000 : n / 1000 < 10 := by omega
  have hsign := digitChar_ne_sign _ h1000
  have h4 : natDigits 4 n = digitChar (n / 1000) :: natDigits 3 (n % 1000) := rfl
  rw [h4, List.cons_append]
  unfold parseIsoChars
  rw [if_neg (by simp [hsign.1]), if_neg (by simp [hsign.2])]
  rw [← List.cons_append, ← h4]
  rw [parseDigits_append 4 0 n _ (by norm_num; omega)]
  simp

theorem parseIsoChars_year6neg (n : Nat) (rest : List Char) (h : n < 1000000)
    (hn0 : n ≠ 0) :
    parseIsoChars (('-' :: natDigits 6 n) ++ rest) = parseIsoTail (-(n : Int)) rest := by
  rw [List.cons_append]
  unfold parseIsoChars
  rw [if_neg (by simp)]
  rw [if_pos (by simp)]
  simp only [List.tail_cons]
  rw [parseDigits_append 6 0 n _ (by norm_num; omega)]
  simp [hn0]

theorem parseIsoChars_year6pos (n : Nat) (rest : List Char) (h : n < 1000000) :
    parseIsoChars (('+' :: natDigits 6 n) ++ rest) = parseIsoTail (n : Int) rest := by
  rw [List.cons_append]
  unfold parseIsoChars
  rw [if_pos (by simp)]
  simp only [List.tail_cons]
  rw [parseDigits_append 6 0 n _ (by norm_num; omega)]
  simp

/-- Parsing the ISO string of an in-range time value recovers the value:
the model of `new Date(s).getTime()` inverts the model of
`toISOString`. -/
theorem parseIso_toISO (t : Int)
    (hlo : -8640000000000000 ≤ t) (hhi : t ≤ 8640000000000000) :
    parseIsoDate (toISOString t) = some t := by
  have hz8a : -100000000 ≤ t / 86400000 := by omega
  have hz8b : t / 86400000 ≤ 100000000 := by omega
  have hyr := yearZ_bounds (t / 86400000) hz8a hz8b
  have hmd := monthZ_dayZ_bounds (t / 86400000)
  have hrt := days_civil_roundtrip (t / 86400000)
  have hval : daysFromCivil (yearZ (t / 86400000)) ((monthZ (t / 86400000)).toNat : Int)
        ((dayZ (t / 86400000)).toNat : Int) * 86400000 +
      (((t % 86400000) / 3600000).toNat : Int) * 3600000 +
      (((t % 86400000) / 60000 % 60).toNat : Int) * 60000 +
      (((t % 86400000) / 1000 % 60).toNat : Int) * 1000 +
      (((t % 86400000) % 1000).toNat : Int) = t := by
    rw [Int.toNat_of_nonneg (by omega), Int.toNat_of_nonneg (by omega),
      Int.toNat_of_nonneg (by omega), Int.toNat_of_nonneg (by omega),
      Int.toNat_of_nonneg (by omega), Int.toNat_of_nonneg (by omega)]
    rw [hrt]
    omega
  show parseIsoChars (toISOChars t) = some t
  unfold toISOChars
  by_cases hyc : 0 ≤ yearZ (t / 86400000) ∧ yearZ (t / 86400000) ≤ 9999
  · unfold yearChars
    rw [if_pos hyc]
    rw [parseIsoChars_year4 _ _ (by omega)]
    rw [Int.toNat_of_nonneg hyc.1]
    rw [parseIsoTail_eq _ _ _ _ _ _ _ (by omega) (by omega) (by omega) (by omega)
      (by omega) (by omega) (by omega) (by omega) (by rw [hval]; omega) (by rw [hval]; omega)]
    rw [hval]
  · unfold yearChars
    rw [if_neg hyc]
    by_cases hneg : yearZ (t / 86400000) < 0
    · rw [if_pos hneg]
      rw [parseIsoChars_year6neg _ _ (by omega) (by omega)]
      rw [show -(((-yearZ (t / 86400000)).toNat : Nat) : Int) = yearZ (t / 86400000) from
        by omega]
      rw [parseIsoTail_eq _ _ _ _ _ _ _ (by omega) (by omega) (by omega) (by omega)
        (by omega) (by omega) (by omega) (by omega) (by rw [hval]; omega) (by rw [hval]; omega)]
      rw [hval]
    · rw [if_neg hneg]
      rw [parseIsoChars_year6pos _ _ (by omega)]
      rw [show (((yearZ (t / 86400000)).toNat : Nat) : Int) = yearZ (t / 86400000) from
        by omega]
      rw [parseIsoTail_eq _ _ _ _ _ _ _ (by omega) (by omega) (by omega) (by omega)
        (by omega) (by omega) (by omega) (by omega) (by rw [hval]; omega) (by rw [hval]; omega)]
      rw [hval]

theorem jadd_comm (a b : JSVal) : jadd a b = jadd b a := by
  cases a <;> cases b <;> simp [jadd, JSVal.toNumber, add_comm]

theorem jadd_assoc (a b c : JSVal) : jadd (jadd a b) c = jadd a (jadd b c) := by
  cases a <;> cases b <;> cases c <;> simp [jadd, JSVal.toNumber, add_assoc]

example : parseFloat "10.50" = .num (21 / 2) := by decide

example : parseFloat "5" = .num 5 := by decide

example : parseFloat "abc" = .nan := by decide

example : parseFloat "" = .nan := by decide

example : parseFloat "  -2.5e3" = .num (-2500) := by decide

example : parseFloat "12abc" = .num 12 := by decide

example : parseFloat "Infinity" = .inf := by decide

example : parseFloat "-Infinity" = .ninf := by decide

example : parseFloat "." = .nan := by decide

example : parseFloat ".5" = .num (1 / 2) := by decide

example : parseFloat "1e" = .num 1 := by decide

/-- A storable amount survives the save/load round trip. -/
theorem decodeExpense_encode (e : Expense) (ha : isStorable e.amount = true) :
    decodeExpense (encodeExpense e) = some e := by
  cases h : e.amount with
  | num q =>
    simp [decodeExpense, encodeExpense, decodeId, decodeAmount, JSVal.toJson, h,
      Rat.den_intCast, Rat.num_intCast]
    rw [← h]
  | null =>
    simp [decodeExpense, encodeExpense, decodeId, decodeAmount, JSVal.toJson, h,
      Rat.den_intCast, Rat.num_intCast]
    rw [← h]
  | nan =>
    rw [h] at ha
    simp [isStorable] at ha
  | inf =>
    rw [h] at ha
    simp [isStorable] at ha
  | ninf =>
    rw [h] at ha
    simp [isStorable] at ha

theorem decodeExpenses_encode (es : List Expense)
    (ha : ∀ e ∈ es, isStorable e.amount = true) :
    decodeExpenses (es.map encodeExpense) = some es := by
  induction es with
  | nil => rfl
  | cons e es ih =>
    simp only [List.map_cons, decodeExpenses]
    rw [decodeExpense_encode e (ha e (by simp)), ih (fun x hx => ha x (by simp [hx]))]

/-- A tracker with an in-range date and storable amounts survives the
save/load round trip. -/
theorem decodeTracker_encode (t : ExpenseTracker)
    (hd1 : -8640000000000000 ≤ t.date) (hd2 : t.date ≤ 8640000000000000)
    (ha : ∀ e ∈ t.expenses, isStorable e.amount = true) :
    decodeTracker (encodeTracker t) = some t := by
  have hdate := parseIso_toISO t.date hd1 hd2
  have hexp := decodeExpenses_encode t.expenses ha
  have hstat : decodeStatus t.status.label = some t.status := by
    cases t.status <;> simp [decodeStatus, Status.label]
  simp only [decodeTracker, encodeTracker, decodeId, Rat.den_intCast, Rat.num_intCast,
    eq_self_iff_true, if_true, hdate, hexp, hstat]

theorem decodeTrackers_encode (l : List ExpenseTracker)
    (hd : ∀ t ∈ l, -8640000000000000 ≤ t.date ∧ t.date ≤ 8640000000000000)
    (ha : ∀ t ∈ l, ∀ e ∈ t.expenses, isStorable e.amount = true) :
    decodeTrackers (l.map encodeTracker) = some l := by
  induction l with
  | nil => rfl
  | cons t l ih =>
    simp only [List.map_cons, decodeTrackers]
    rw [decodeTracker_encode t (hd t (by simp)).1 (hd t (by simp)).2 (ha t (by simp)),
      ih (fun x hx => hd x (by simp [hx])) (fun x hx => ha x (by simp [hx]))]

/-! ## Helpers for the claims -/
theorem map_id_on {α : Type} (f : α → α) :
    ∀ (l : List α), (∀ x ∈ l, f x = x) → l.map f = l
  | [], _ => rfl
  | x :: xs, h => by
    rw [List.map_cons, h x (by simp), map_id_on f xs (fun y hy => h y (by simp [hy]))]

/-! ## Claims -/
/-- C1: for every tracker `t`, `getTotal t` equals the sum of the
amounts of the expenses in `t.expenses` (and, as in the spec's example,
two expenses of 10.50 and 5 total 15.50).  The total is a function of
the tracker, computed on demand; `ExpenseTracker` has no total field. -/
theorem getTotal_eq_sum :
    (∀ t : ExpenseTracker, getTotal t = sumAmounts (t.expenses.map Expense.amount)) ∧
    getTotal { id := 0, name := "ex", date := 0,
               expenses := [{ id := 1, title := "a", amount := JSVal.num (21 / 2) },
                            { id := 2, title := "b", amount := JSVal.num 5 }],
               status := .inProgress, expanded := false } = JSVal.num (31 / 2) := by
  constructor
  · intro t
    unfold getTotal sumAmounts
    calc t.expenses.foldl (fun sum expense => jadd sum expense.amount) (JSVal.num 0)
        = (t.expenses.map Expense.amount).foldl jadd (JSVal.num 0) :=
          (List.foldl_map _ _ _ _).symm
      _ = (t.expenses.map Expense.amount).foldr jadd (JSVal.num 0) :=
          @List.foldl_eq_foldr _ _ ⟨jadd_comm⟩ ⟨jadd_assoc⟩ _ _
  · decide

/-- C2: for every tracker list and non-empty name, `addTracker` yields a
list one longer, which is a permutation of the old list plus one new
tracker carrying the chosen date (today's date `now` when none is set),
and which is sorted by date ascending. -/
theorem addTracker_appends_and_sorts (trackers : List ExpenseTracker)
    (trackerName : String) (trackerDate : Option Int) (now : Int)
    (h : trackerName ≠ "") :
    (addTracker trackers trackerName trackerDate now).length = trackers.length + 1 ∧
    (addTracker trackers trackerName trackerDate now).Perm
      (trackers ++ [{ id := now, name := trackerName,
                      date := trackerDate.getD now, expenses := [],
                      status := .inProgress, expanded := false }]) ∧
    (addTracker trackers trackerName trackerDate now).Pairwise
      (fun a b => a.date ≤ b.date) := by
  unfold addTracker
  rw [if_neg h]
  refine ⟨?_, List.mergeSort_perm _ _, ?_⟩
  · rw [(List.mergeSort_perm _ _).length_eq]
    simp
  · have hs := @List.sorted_mergeSort ExpenseTracker
      (fun a b => decide (a.date ≤ b.date))
      (fun a b c hab hbc =>
        decide_eq_true (le_trans (of_decide_eq_true hab) (of_decide_eq_true hbc)))
      (fun a b => by rcases le_total a.date b.date with h1 | h1 <;> simp [h1])
      (trackers ++ [{ id := now, name := trackerName,
                      date := trackerDate.getD now, expenses := [],
                      status := .inProgress, expanded := false }])
    exact hs.imp (fun hx => of_decide_eq_true hx)

theorem addTracker_appends_and_sorts_witness :
    (addTracker [demoA] "food" (some 2) 9).length = [demoA].length + 1 ∧
    (addTracker [demoA] "food" (some 2) 9).Perm
      ([demoA] ++ [{ id := 9, name := "food",
                     date := (some 2).getD 9, expenses := [],
                     status := .inProgress, expanded := false }]) ∧
    (addTracker [demoA] "food" (some 2) 9).Pairwise (fun a b => a.date ≤ b.date) :=
  addTracker_appends_and_sorts [demoA] "food" (some 2) 9 (by decide)

/-- C4: `deleteTracker` removes every tracker with the given id (and
with it all its expenses, which live inside the tracker record; the
whole change is one list value), keeps every other tracker (it returns
a sublist, so survivors keep their order and contents), and is the
identity when no tracker has the id. -/
theorem deleteTracker_spec (trackers : List ExpenseTracker) (trackerId : Int) :
    (∀ t ∈ deleteTracker trackers trackerId, t.id ≠ trackerId) ∧
    (∀ t ∈ trackers, t.id ≠ trackerId → t ∈ deleteTracker trackers trackerId) ∧
    (deleteTracker trackers trackerId).Sublist trackers ∧
    ((∀ t ∈ trackers, t.id ≠ trackerId) → deleteTracker trackers trackerId = trackers) := by
  unfold deleteTracker
  refine ⟨?_, ?_, List.filter_sublist _, ?_⟩
  · intro t ht
    exact of_decide_eq_true (List.mem_filter.mp ht).2
  · intro t ht hne
    exact List.mem_filter.mpr ⟨ht, decide_eq_true hne⟩
  · intro h
    exact List.filter_eq_self.mpr (fun t ht => decide_eq_true (h t ht))

theorem deleteTracker_spec_witness : demoB ∈ deleteTracker [demoA, demoB] 1 :=
  (deleteTracker_spec [demoA, demoB] 1).2.1 demoB (by decide) (by decide)

/-- C6: invalid input silently no-ops: an empty tracker name leaves the
list unchanged, and an empty expense title or empty amount string leaves
the list unchanged.  No operation returns an error value (each is a
total function into tracker lists). -/
theorem invalid_input_silent_noop (trackers : List ExpenseTracker)
    (trackerDate : Option Int) (now trackerId : Int) (title amount : String) :
    addTracker trackers "" trackerDate now = trackers ∧
    addExpense trackers trackerId "" amount now = trackers ∧
    addExpense trackers trackerId title "" now = trackers := by
  refine ⟨?_, ?_, ?_⟩
  · simp [addTracker]
  · simp [addExpense]
  · simp [addExpense]

/-- C7: toggling the status of a present tracker twice restores the
original list: the status flips between the two enum values, so the
double toggle is the identity. -/
theorem toggleStatus_involutive (trackers : List ExpenseTracker) (trackerId : Int)
    (hmem : ∃ t ∈ trackers, t.id = trackerId) :
    toggleStatus (toggleStatus trackers trackerId) trackerId = trackers := by
  unfold toggleStatus
  rw [List.map_map]
  apply map_id_on
  intro t _
  obtain ⟨i, nm, d, es, s, ex⟩ := t
  by_cases h : i = trackerId
  · cases s <;> simp [Function.comp_apply, h]
  · simp [Function.comp_apply, h]

theorem toggleStatus_involutive_witness :
    toggleStatus (toggleStatus [demoA, demoB] 2) 2 = [demoA, demoB] :=
  toggleStatus_involutive [demoA, demoB] 2 ⟨demoB, by decide, rfl⟩

/-- C3, as stated, is false: serializing a tracker list and loading it
back does not always reproduce the same tracker set.  A concrete
counterexample: a tracker holding an expense with amount `NaN` (exactly
what `addExpense` stores for a non-numeric amount string).
`JSON.stringify` writes the `NaN` as `null`, so the reloaded tracker
carries amount `null` instead and the original tracker is not
recovered. -/
theorem storage_roundtrip_counterexample :
    loadTrackers 0 (encodeTrackers [nanTracker]) ≠ some [nanTracker] ∧
    loadTrackers 0 (encodeTrackers [nanTracker]) =
      some [{ nanTracker with
              expenses := [{ id := 2, title := "veg", amount := JSVal.null }] }] := by
  constructor
  · decide
  · decide

/-- C3 (amended): serializing the tracker list to the stored JSON blob
and loading it back reproduces the same tracker set — every tracker with
all its fields and expenses, reordered only by the load-time sort —
provided every date is within the representable `Date` range and every
expense amount is a finite number or `null` (a `NaN` or infinite amount
is serialized as JSON `null` and comes back as `null`). -/
theorem storage_roundtrip_amended (l : List ExpenseTracker) (now : Int)
    (hd : ∀ t ∈ l, -8640000000000000 ≤ t.date ∧ t.date ≤ 8640000000000000)
    (ha : ∀ t ∈ l, ∀ e ∈ t.expenses, isStorable e.amount = true) :
    loadTrackers now (encodeTrackers l) = some (sortByRecency now l) ∧
    (sortByRecency now l).Perm l := by
  constructor
  · show Option.map (sortByRecency now) (decodeTrackers (l.map encodeTracker)) =
      some (sortByRecency now l)
    rw [decodeTrackers_encode l hd ha]
    rfl
  · exact List.mergeSort_perm l _

theorem storage_roundtrip_amended_witness :
    loadTrackers 7 (encodeTrackers [demoA, demoB]) =
      some (sortByRecency 7 [demoA, demoB]) ∧
    (sortByRecency 7 [demoA, demoB]).Perm [demoA, demoB] :=
  storage_roundtrip_amended [demoA, demoB] 7 (by decide) (by decide)

/-- C5: with a tracker of the given id present, a non-empty title and a
non-empty amount string, `addExpense` keeps the list length, appends to
the matching tracker exactly one expense whose title is the given title
and whose amount is `parseFloat amount` — stored uncorrected, whatever
it is (a non-numeric string parses to `NaN`; nothing checks that the
amount is positive or finite) — and returns every other tracker
unchanged. -/
theorem addExpense_spec (trackers : List ExpenseTracker) (trackerId : Int)
    (title amount : String) (now : Int)
    (hmem : ∃ t ∈ trackers, t.id = trackerId)
    (ht : title ≠ "") (ha : amount ≠ "") :
    (addExpense trackers trackerId title amount now).length = trackers.length ∧
    ∀ (k : Nat) (t : ExpenseTracker), trackers[k]? = some t →
      (t.id ≠ trackerId → (addExpense trackers trackerId title amount now)[k]? = some t) ∧
      (t.id = trackerId → (addExpense trackers trackerId title amount now)[k]? =
        some { t with expenses := t.expenses ++
          [{ id := now, title := title, amount := parseFloat amount }] }) := by
  have he : addExpense trackers trackerId title amount now =
      trackers.map (fun tracker =>
        if tracker.id = trackerId then
          { tracker with expenses := tracker.expenses ++
            [{ id := now, title := title, amount := parseFloat amount }] }
        else tracker) := by
    unfold addExpense
    rw [if_neg (by simp [ht, ha])]
  constructor
  · rw [he]
    exact List.length_map _ _
  · intro k t hkt
    rw [he, List.getElem?_map, hkt]
    constructor
    · intro h
      simp [if_neg h]
    · intro h
      simp [if_pos h]

theorem addExpense_spec_witness :
    (addExpense [demoA] 1 "lunch" "abc" 99)[0]? =
      some { demoA with expenses := demoA.expenses ++
        [{ id := 99, title := "lunch", amount := JSVal.nan }] } := by
  have h := ((addExpense_spec [demoA] 1 "lunch" "abc" 99 ⟨demoA, by decide, rfl⟩
    (by decide) (by decide)).2 0 demoA rfl).2 rfl
  rw [show parseFloat "abc" = JSVal.nan from by decide] at h
  exact h

/-- C8: the list produced by loading the stored blob is sorted by
proximity to the load time: adjacent trackers have non-decreasing
absolute distance between the load time and their dates. -/
theorem load_sorted_by_recency (now : Int) (blob : Json) (l : List ExpenseTracker)
    (h : loadTrackers now blob = some l) :
    l.Chain' (fun a b => |now - a.date| ≤ |now - b.date|) := by
  unfold loadTrackers at h
  cases blob with
  | arr js =>
    have h2 : Option.map (sortByRecency now) (decodeTrackers js) = some l := h
    cases hdec : decodeTrackers js with
    | none =>
      rw [hdec] at h2
      simp at h2
    | some ts =>
      rw [hdec] at h2
      simp only [Option.map_some', Option.some.injEq] at h2
      subst h2
      unfold sortByRecency
      have hs := @List.sorted_mergeSort ExpenseTracker
        (fun a b => decide (|now - a.date| ≤ |now - b.date|))
        (fun a b c hab hbc =>
          decide_eq_true (le_trans (of_decide_eq_true hab) (of_decide_eq_true hbc)))
        (fun a b => by
          rcases le_total |now - a.date| |now - b.date| with h1 | h1 <;> simp [h1])
        ts
      exact (hs.imp (fun hx => of_decide_eq_true hx)).chain'
  | null => exact Option.noConfusion h
  | bool b => exact Option.noConfusion h
  | num q => exact Option.noConfusion h
  | str s => exact Option.noConfusion h
  | obj fields => exact Option.noConfusion h

theorem load_sorted_by_recency_witness :
    (sortByRecency 0 [demoA, demoB]).Chain'
      (fun a b => |(0 : Int) - a.date| ≤ |0 - b.date|) :=
  load_sorted_by_recency 0 (encodeTrackers [demoA, demoB])
    (sortByRecency 0 [demoA, demoB]) (by decide)

/-- C9: every operation on the tracker list preserves the invariant that
each tracker's status is one of the two values "In progress ⚠️" and
"Cleared ✅".  In the embedding the status type has exactly these two
constructors, mirroring the TypeScript union type; the operations only
ever assign these two values. -/
theorem ops_preserve_status_enum (trackers : List ExpenseTracker) (nm : String)
    (dopt : Option Int) (now trackerId expenseId : Int) (title amount : String) :
    (∀ t ∈ addTracker trackers nm dopt now, statusValid t) ∧
    (∀ t ∈ deleteTracker trackers trackerId, statusValid t) ∧
    (∀ t ∈ addExpense trackers trackerId title amount now, statusValid t) ∧
    (∀ t ∈ deleteExpense trackers trackerId expenseId, statusValid t) ∧
    (∀ t ∈ toggleStatus trackers trackerId, statusValid t) ∧
    (∀ t ∈ toggleExpand trackers trackerId, statusValid t) := by
  refine ⟨?_, ?_, ?_, ?_, ?_, ?_⟩ <;> intro t _ <;> cases h : t.status <;>
    simp [statusValid, h]

theorem ops_preserve_status_enum_witness :
    statusValid { id := 9, name := "g", date := 9, expenses := [],
                  status := .inProgress, expanded := false } :=
  (ops_preserve_status_enum [] "g" none 9 0 0 "a" "b").1 _ (by decide)

/-- C10: when no tracker has the given id, each per-tracker operation —
`addExpense`, `deleteExpense`, `toggleStatus`, `toggleExpand` — leaves
the tracker list entirely unchanged (the absent-id no-op the spec states
for `deleteTracker` holds for every per-tracker operation). -/
theorem absent_id_noop (trackers : List ExpenseTracker) (trackerId expenseId : Int)
    (title amount : String) (now : Int)
    (h : ∀ t ∈ trackers, t.id ≠ trackerId) :
    addExpense trackers trackerId title amount now = trackers ∧
    deleteExpense trackers trackerId expenseId = trackers ∧
    toggleStatus trackers trackerId = trackers ∧
    toggleExpand trackers trackerId = trackers := by
  refine ⟨?_, ?_, ?_, ?_⟩
  · unfold addExpense
    split
    · rfl
    · exact map_id_on _ _ (fun t ht => if_neg (h t ht))
  · unfold deleteExpense
    exact map_id_on _ _ (fun t ht => if_neg (h t ht))
  · unfold toggleStatus
    exact map_id_on _ _ (fun t ht => if_neg (h t ht))
  · unfold toggleExpand
    exact map_id_on _ _ (fun t ht => if_neg (h t ht))

theorem absent_id_noop_witness :
    addExpense [demoA, demoB] 77 "x" "1" 5 = [demoA, demoB] ∧
    deleteExpense [demoA, demoB] 77 0 = [demoA, demoB] ∧
    toggleStatus [demoA, demoB] 77 = [demoA, demoB] ∧
    toggleExpand [demoA, demoB] 77 = [demoA, demoB] :=
  absent_id_noop [demoA, demoB] 77 0 "x" "1" 5 (by decide)
